import Mathlib

/-!
Verification of the webhook dispatch engine of the `messenger` Go library.

The development shallowly embeds the dispatch-relevant code of the
repository: the wire data model (`receiving.go`, `message.go`), the event
classifier and dispatcher (`messenger.go`), the signature check
(`checkIntegrity`), and the JSON envelope decoding used by the HTTP
handler (`handle`).  Go pointers to payload structs become `Option`,
Go byte strings become `List Nat` byte lists, `time.Time` values that the
code only ever builds with `time.Unix(sec, 0)` become the `Int` value
`sec`, and a Go panic raised by a caller-supplied handler is modelled by
the handler returning `Except.error ()`.  The dispatcher is given a trace
semantics: it returns the list of handler invocations it performed, in
order, together with a flag telling whether a handler panic escaped.
-/

set_option maxRecDepth 100000

namespace Messenger

/-- `Sender` from `receiving.go`: who the event was sent from. -/
structure Sender where
  ID : Int := 0
  deriving DecidableEq, Repr

/-- `Recipient` from `receiving.go`: who the event was sent to. -/
structure Recipient where
  ID : Int := 0
  deriving DecidableEq, Repr

/-- `QuickReply` from `receiving.go`. -/
structure QuickReply where
  ContentType : String := ""
  Title : String := ""
  Payload : String := ""
  deriving DecidableEq, Repr

/-- `Payload` from `receiving.go` (attachment location).  The optional
`Coordinates` sub-record carries `float64` fields and is outside the scope
of this model; it is not represented. -/
structure Payload where
  URL : String := ""
  deriving DecidableEq, Repr

/-- `Attachment` from `receiving.go`. -/
structure Attachment where
  Title : String := ""
  URL : String := ""
  «Type» : String := ""
  Payload : Payload := {}
  deriving DecidableEq, Repr

/-- `Message` from `message.go`: an incoming text message.  `Time` models
the `time.Time` field as seconds since the Unix epoch (the dispatcher only
ever builds it with `time.Unix(sec, 0)`); the decoded zero value is 0. -/
structure Message where
  Sender : Sender := {}
  Recipient : Recipient := {}
  Time : Int := 0
  IsEcho : Bool := false
  Mid : String := ""
  Seq : Int := 0
  Text : String := ""
  Attachments : List Attachment := []
  QuickReply : Option QuickReply := none
  deriving DecidableEq, Repr

/-- `Delivery` from `message.go`: a delivery receipt.  It has no sender,
recipient or time field of its own. -/
structure Delivery where
  Mids : List String := []
  RawWatermark : Int := 0
  Seq : Int := 0
  deriving DecidableEq, Repr

/-- `Read` from `message.go`: a read receipt.  It has no sender,
recipient or time field of its own. -/
structure Read where
  RawWatermark : Int := 0
  Seq : Int := 0
  deriving DecidableEq, Repr

/-- `Referral` from `receiving.go`. -/
structure Referral where
  Ref : String := ""
  Source : String := ""
  «Type» : String := ""
  deriving DecidableEq, Repr

/-- `PostBack` from `message.go`. -/
structure PostBack where
  Sender : Sender := {}
  Recipient : Recipient := {}
  Time : Int := 0
  Payload : String := ""
  Referral : Referral := {}
  deriving DecidableEq, Repr

/-- `OptIn` from `receiving.go`. -/
structure OptIn where
  Sender : Sender := {}
  Recipient : Recipient := {}
  Time : Int := 0
  Ref : String := ""
  deriving DecidableEq, Repr

/-- `ReferralMessage` from `receiving.go`.  The Go struct embeds a
`*Referral`; the embedded pointer is modelled as an `Option Referral`. -/
structure ReferralMessage where
  Referral : Option Referral := none
  Sender : Sender := {}
  Recipient : Recipient := {}
  Time : Int := 0
  deriving DecidableEq, Repr

/-- `AccountLinking` from `message.go`. -/
structure AccountLinking where
  Sender : Sender := {}
  Recipient : Recipient := {}
  Time : Int := 0
  Status : String := ""
  AuthorizationCode : String := ""
  deriving DecidableEq, Repr

/-- `MessageInfo` from `receiving.go`: one decoded webhook event.  Each Go
pointer to a payload variant becomes an `Option`. -/
structure MessageInfo where
  Sender : Sender := {}
  Recipient : Recipient := {}
  Timestamp : Int := 0
  Message : Option Message := none
  Delivery : Option Delivery := none
  PostBack : Option PostBack := none
  Read : Option Read := none
  OptIn : Option OptIn := none
  ReferralMessage : Option ReferralMessage := none
  AccountLinking : Option AccountLinking := none
  deriving DecidableEq, Repr

/-- `Entry` from `receiving.go`: a batch of events. -/
structure Entry where
  ID : Int := 0
  Time : Int := 0
  Messaging : List MessageInfo := []
  deriving DecidableEq, Repr

/-- `Receive` from `receiving.go`: the decoded envelope. -/
structure Receive where
  Object : String := ""
  Entry : List Entry := []
  deriving DecidableEq, Repr

/-- `Action` from `actions.go`: the classification of a webhook event. -/
inductive Action where
  | UnknownAction
  | TextAction
  | DeliveryAction
  | ReadAction
  | PostBackAction
  | OptInAction
  | ReferralAction
  deriving DecidableEq, Repr

export Action (UnknownAction TextAction DeliveryAction ReadAction PostBackAction OptInAction ReferralAction)

/-- `classify` from `messenger.go` (lines 421-436): determines what type of
message a webhook event is by testing the variant pointers in a fixed
order.  The `Entry` argument is taken but never inspected, exactly as in
the source. -/
def classify (info : MessageInfo) (e : Entry) : Action :=
  if info.Message.isSome then TextAction
  else if info.Delivery.isSome then DeliveryAction
  else if info.Read.isSome then ReadAction
  else if info.PostBack.isSome then PostBackAction
  else if info.OptIn.isSome then OptInAction
  else if info.ReferralMessage.isSome then ReferralAction
  else UnknownAction

/-! ## String and byte-level helpers

Embeddings of the Go standard-library functions used by
`checkIntegrity`: `strings.ToLower`, `strings.SplitN(s, "=", 2)`,
`crypto/sha1`, `crypto/hmac` and the `%x` lowercase hex rendering. -/

/-- `strings.ToLower` restricted to the character-wise case mapping
(sufficient for the ASCII data handled here). -/
def strToLower (s : String) : String :=
  ⟨s.data.map Char.toLower⟩

/-- `strings.SplitN(s, "=", 2)`: splits at the first `=` only; a string
with no `=` yields a one-element list. -/
def splitN2 (s : String) : List String :=
  if (s.data.takeWhile (· ≠ '=')).length = s.data.length then [s]
  else [⟨s.data.takeWhile (· ≠ '=')⟩,
        ⟨s.data.drop ((s.data.takeWhile (· ≠ '=')).length + 1)⟩]

/-- Truncation of a machine word to 32 bits. -/
def w32 (n : Nat) : Nat := n % 4294967296

/-- 32-bit rotate left by `k` of a word `n < 2^32`. -/
def rotl (k n : Nat) : Nat := w32 ((n <<< k) ||| (n >>> (32 - k)))

/-- Big-endian bytes of an 8-byte (length) field. -/
def be8 (n : Nat) : List Nat :=
  (List.range 8).map fun i => n >>> (8 * (7 - i)) % 256

/-- SHA-1 message padding (FIPS 180, as implemented by Go `crypto/sha1`):
a `0x80` byte, zeros to 56 mod 64, then the bit length, big-endian. -/
def sha1Pad (msg : List Nat) : List Nat :=
  let zeros := (56 + 64 - (msg.length + 1) % 64) % 64
  msg ++ [128] ++ List.replicate zeros 0 ++ be8 (msg.length * 8)

/-- Split a byte list into 64-byte blocks (`fuel` bounds the recursion). -/
def chunks64 : Nat → List Nat → List (List Nat)
  | 0, _ => []
  | _ + 1, [] => []
  | fuel + 1, l => l.take 64 :: chunks64 fuel (l.drop 64)

/-- The sixteen big-endian 32-bit words of one 64-byte block. -/
def blockWords (b : List Nat) : List Nat :=
  (List.range 16).map fun i =>
    b.getD (4 * i) 0 <<< 24 ||| b.getD (4 * i + 1) 0 <<< 16 |||
    b.getD (4 * i + 2) 0 <<< 8 ||| b.getD (4 * i + 3) 0

/-- SHA-1 message schedule extension: repeatedly append
`rotl 1 (w[n-3] xor w[n-8] xor w[n-14] xor w[n-16])`. -/
def extendW : Nat → List Nat → List Nat
  | 0, acc => acc
  | fuel + 1, acc =>
    let n := acc.length
    extendW fuel (acc ++ [rotl 1 (acc.getD (n - 3) 0 ^^^ acc.getD (n - 8) 0 ^^^
      acc.getD (n - 14) 0 ^^^ acc.getD (n - 16) 0)])

/-- One SHA-1 round applied to the working state `(a, b, c, d, e)`. -/
def sha1Round (st : Nat × Nat × Nat × Nat × Nat) (iw : Nat × Nat) :
    Nat × Nat × Nat × Nat × Nat :=
  let (a, b, c, d, e) := st
  let (i, wi) := iw
  let fk : Nat × Nat :=
    if i < 20 then ((b &&& c) ||| ((b ^^^ 4294967295) &&& d), 1518500249)
    else if i < 40 then (b ^^^ c ^^^ d, 1859775393)
    else if i < 60 then ((b &&& c) ||| (b &&& d) ||| (c &&& d), 2400959708)
    else (b ^^^ c ^^^ d, 3395469782)
  (w32 (rotl 5 a + fk.1 + e + fk.2 + wi), a, rotl 30 b, c, d)

/-- SHA-1 compression of one 64-byte block into the hash state. -/
def sha1Block (h : List Nat) (block : List Nat) : List Nat :=
  let ws := extendW 64 (blockWords block)
  let st := ws.enum.foldl sha1Round
    (h.getD 0 0, h.getD 1 0, h.getD 2 0, h.getD 3 0, h.getD 4 0)
  [w32 (h.getD 0 0 + st.1), w32 (h.getD 1 0 + st.2.1), w32 (h.getD 2 0 + st.2.2.1),
   w32 (h.getD 3 0 + st.2.2.2.1), w32 (h.getD 4 0 + st.2.2.2.2)]

/-- SHA-1 of a byte list, as 20 bytes (Go `crypto/sha1`). -/
def sha1 (msg : List Nat) : List Nat :=
  let padded := sha1Pad msg
  let hs := (chunks64 (padded.length + 1) padded).foldl sha1Block
    [1732584193, 4023233417, 2562383102, 271733878, 3285377520]
  hs.flatMap fun h => [h >>> 24 % 256, h >>> 16 % 256, h >>> 8 % 256, h % 256]

/-- HMAC-SHA1 (RFC 2104, Go `crypto/hmac` with `sha1.New`). -/
def hmacSha1 (key msg : List Nat) : List Nat :=
  let k0 := if 64 < key.length then sha1 key else key
  let kp := k0 ++ List.replicate (64 - k0.length) 0
  sha1 ((kp.map (· ^^^ 92)) ++ sha1 ((kp.map (· ^^^ 54)) ++ msg))

/-- The sixteen lowercase hex digits. -/
def hexChars : List Char := "0123456789abcdef".data

/-- Hex digit for a nibble. -/
def hexDigit (n : Nat) : Char := hexChars.getD (n % 16) '0'

/-- `fmt.Sprintf("%x", bytes)`: two lowercase hex digits per byte. -/
def bytesToHex (bs : List Nat) : String :=
  ⟨bs.flatMap fun b => [hexDigit (b / 16 % 16), hexDigit (b % 16)]⟩

/-- The lowercase hex HMAC-SHA1 of `body` under `secret`, as computed by
`checkSHA1` in `messenger.go`. -/
def hexHmacSha1 (secret body : List Nat) : String :=
  bytesToHex (hmacSha1 secret body)

/-- The failure taxonomy of the signature verifier (the spec's names for
the distinct `fmt.Errorf` results of `checkIntegrity`). -/
inductive VerifyError where
  | MissingSecret
  | MissingHeader
  | MalformedHeader
  | UnsupportedEncoding
  | SignatureMismatch
  deriving DecidableEq, Repr

/-- `checkIntegrity` from `messenger.go` (lines 282-315).  `appSecret` and
`body` are byte lists (Go strings are byte strings); `header` is the value
of the `X-Hub-Signature` header, with the empty string standing for an
absent header exactly as `http.Header.Get` does. -/
def checkIntegrity (appSecret : List Nat) (header : String) (body : List Nat) :
    Except VerifyError Unit :=
  if appSecret = [] then .error .MissingSecret
  else
    let sig := splitN2 header
    if sig.length = 1 then
      if sig.headD "" = "" then .error .MissingHeader
      else .error .MalformedHeader
    else
      let sigEnc := strToLower (sig.getD 0 "")
      let sigHash := strToLower (sig.getD 1 "")
      if sigEnc = "sha1" then
        if hexHmacSha1 appSecret body ≠ sigHash then .error .SignatureMismatch
        else .ok ()
      else .error .UnsupportedEncoding

/-! ## The dispatcher with a trace semantics

A Go handler is a caller-supplied function; its only interactions with the
dispatcher are being called with its arguments and possibly panicking.  A
handler is therefore modelled as a function returning `Except Unit Unit`,
where `.error ()` stands for a panic.  `dispatch` returns the ordered list
of handler invocations it performed (each recording the handler's position
in its registration list, the payload value passed, and the `Response`
passed) together with a flag that is `true` when a handler panic escaped
the dispatcher (the source has no `recover`, so a panic aborts the loop
and propagates to the HTTP layer). -/

/-- `Response` from `response.go`: the reply context handed to handlers. -/
structure Response where
  token : String
  «to» : Recipient
  deriving DecidableEq, Repr

/-- The result of one Go handler invocation: `.error ()` models a panic. -/
abbrev HandlerResult := Except Unit Unit

/-- One recorded handler invocation: which handler ran (by its position in
the registration list for its kind) and the exact arguments it received. -/
inductive Call where
  | text (idx : Nat) (msg : Message) (resp : Response)
  | delivery (idx : Nat) (d : Delivery) (resp : Response)
  | read (idx : Nat) (r : Read) (resp : Response)
  | postBack (idx : Nat) (p : PostBack) (resp : Response)
  | optIn (idx : Nat) (o : OptIn) (resp : Response)
  | referral (idx : Nat) (r : ReferralMessage) (resp : Response)
  deriving DecidableEq, Repr

/-- `Messenger` from `messenger.go`, restricted to the fields the dispatch
path reads: the six per-kind handler registration lists (appended to by
`HandleMessage`, `HandleDelivery`, `HandleRead`, `HandlePostBack`,
`HandleOptIn`, `HandleReferral`), the page access token, the verify flag
and the app secret (as bytes). -/
structure MessengerC where
  messageHandlers : List (Message → Response → HandlerResult) := []
  deliveryHandlers : List (Delivery → Response → HandlerResult) := []
  readHandlers : List (Read → Response → HandlerResult) := []
  postBackHandlers : List (PostBack → Response → HandlerResult) := []
  optInHandlers : List (OptIn → Response → HandlerResult) := []
  referralHandlers : List (ReferralMessage → Response → HandlerResult) := []
  token : String := ""
  verify : Bool := false
  appSecret : List Nat := []

/-- The `for _, f := range handlers` loop of one `case` of `dispatch`:
runs the handlers left to right on the fixed payload and response,
recording each invocation; a panicking handler ends the loop with the
panic flag set.  `i` is the position of the first handler of `hs` in the
full registration list. -/
def runHandlers {α : Type} (hs : List (α → Response → HandlerResult)) (a : α)
    (resp : Response) (mk : Nat → α → Response → Call) (i : Nat) :
    List Call × Bool :=
  match hs with
  | [] => ([], false)
  | f :: fs =>
    match f a resp with
    | .error _ => ([mk i a resp], true)
    | .ok _ =>
      let r := runHandlers fs a resp mk (i + 1)
      (mk i a resp :: r.1, r.2)

/-- The body of `dispatch`'s inner loop for one event (`messenger.go`
lines 320-374): classify, skip `UnknownAction`, build the `Response` from
the event's sender and the client token, then fan out to the handler list
of the classified kind.  For `TextAction`, `PostBackAction`, `OptInAction`
and `ReferralAction` the payload's `Sender`, `Recipient` and `Time`
(`time.Unix(info.Timestamp/int64(time.Microsecond), 0)`, i.e. the
timestamp divided by 1000) are populated before the call; `DeliveryAction`
and `ReadAction` payloads are passed exactly as decoded. -/
def eventCalls (m : MessengerC) (info : MessageInfo) (e : Entry) :
    List Call × Bool :=
  let a := classify info e
  if a = UnknownAction then ([], false)
  else
    let resp : Response := { token := m.token, «to» := ⟨info.Sender.ID⟩ }
    match a with
    | TextAction =>
      let message := { info.Message.getD {} with
        Sender := info.Sender, Recipient := info.Recipient,
        Time := Int.tdiv info.Timestamp 1000 }
      runHandlers m.messageHandlers message resp Call.text 0
    | DeliveryAction =>
      runHandlers m.deliveryHandlers (info.Delivery.getD {}) resp Call.delivery 0
    | ReadAction =>
      runHandlers m.readHandlers (info.Read.getD {}) resp Call.read 0
    | PostBackAction =>
      let message := { info.PostBack.getD {} with
        Sender := info.Sender, Recipient := info.Recipient,
        Time := Int.tdiv info.Timestamp 1000 }
      runHandlers m.postBackHandlers message resp Call.postBack 0
    | OptInAction =>
      let message := { info.OptIn.getD {} with
        Sender := info.Sender, Recipient := info.Recipient,
        Time := Int.tdiv info.Timestamp 1000 }
      runHandlers m.optInHandlers message resp Call.optIn 0
    | ReferralAction =>
      let message := { info.ReferralMessage.getD {} with
        Sender := info.Sender, Recipient := info.Recipient,
        Time := Int.tdiv info.Timestamp 1000 }
      runHandlers m.referralHandlers message resp Call.referral 0
    | UnknownAction => ([], false)

/-- The `for _, info := range entry.Messaging` loop of `dispatch`.  An
escaped panic aborts the remaining events. -/
def dispatchInfos (m : MessengerC) (e : Entry) :
    List MessageInfo → List Call × Bool
  | [] => ([], false)
  | info :: rest =>
    let r := eventCalls m info e
    if r.2 then (r.1, true)
    else
      let r2 := dispatchInfos m e rest
      (r.1 ++ r2.1, r2.2)

/-- `dispatch` from `messenger.go` (lines 318-376): the
`for _, entry := range r.Entry` loop over batches. -/
def dispatch (m : MessengerC) (r : Receive) : List Call × Bool :=
  go r.Entry
where
  go : List Entry → List Call × Bool
    | [] => ([], false)
    | e :: es =>
      let r1 := dispatchInfos m e e.Messaging
      if r1.2 then (r1.1, true)
      else
        let r2 := go es
        (r1.1 ++ r2.1, r2.2)

/-! ## Spec-side description of a dispatch trace

`canonicalTrace` is written from the specification's words (§4.5, §5, §8):
for every batch in order, for every event in order, classify; skip
`Unknown`; build a ReplyContext from the event's sender and the
process-wide credential; invoke every registered handler of the
classified kind in registration order with the typed payload.  The
refinement theorem for C3 compares `dispatch` against it. -/

/-- The ReplyContext of an event: target from the event's sender,
credential the process-wide token (spec §4.5 step 3). -/
def replyContext (m : MessengerC) (info : MessageInfo) : Response :=
  { token := m.token, «to» := ⟨info.Sender.ID⟩ }

/-- The text payload as the handlers observe it: decoded message with
sender, recipient and normalized timestamp populated. -/
def populatedMessage (info : MessageInfo) : Message :=
  { info.Message.getD {} with
    Sender := info.Sender, Recipient := info.Recipient,
    Time := Int.tdiv info.Timestamp 1000 }

/-- The postback payload as the handlers observe it. -/
def populatedPostBack (info : MessageInfo) : PostBack :=
  { info.PostBack.getD {} with
    Sender := info.Sender, Recipient := info.Recipient,
    Time := Int.tdiv info.Timestamp 1000 }

/-- The opt-in payload as the handlers observe it. -/
def populatedOptIn (info : MessageInfo) : OptIn :=
  { info.OptIn.getD {} with
    Sender := info.Sender, Recipient := info.Recipient,
    Time := Int.tdiv info.Timestamp 1000 }

/-- The referral payload as the handlers observe it. -/
def populatedReferral (info : MessageInfo) : ReferralMessage :=
  { info.ReferralMessage.getD {} with
    Sender := info.Sender, Recipient := info.Recipient,
    Time := Int.tdiv info.Timestamp 1000 }

/-- Spec-side calls for one event: every registered handler of the
classified kind, in registration order. -/
def eventCanonical (m : MessengerC) (info : MessageInfo) (e : Entry) : List Call :=
  match classify info e with
  | UnknownAction => []
  | TextAction =>
    (List.range m.messageHandlers.length).map fun i =>
      Call.text i (populatedMessage info) (replyContext m info)
  | DeliveryAction =>
    (List.range m.deliveryHandlers.length).map fun i =>
      Call.delivery i (info.Delivery.getD {}) (replyContext m info)
  | ReadAction =>
    (List.range m.readHandlers.length).map fun i =>
      Call.read i (info.Read.getD {}) (replyContext m info)
  | PostBackAction =>
    (List.range m.postBackHandlers.length).map fun i =>
      Call.postBack i (populatedPostBack info) (replyContext m info)
  | OptInAction =>
    (List.range m.optInHandlers.length).map fun i =>
      Call.optIn i (populatedOptIn info) (replyContext m info)
  | ReferralAction =>
    (List.range m.referralHandlers.length).map fun i =>
      Call.referral i (populatedReferral info) (replyContext m info)

/-- Spec-side trace of a whole request: batches in order, events in
order, handlers in registration order. -/
def canonicalTrace (m : MessengerC) (r : Receive) : List Call :=
  r.Entry.flatMap fun e => e.Messaging.flatMap fun info => eventCanonical m info e

/-- No registered handler of `m` ever panics. -/
def NoPanics (m : MessengerC) : Prop :=
  (∀ f ∈ m.messageHandlers, ∀ a b, f a b = .ok ()) ∧
  (∀ f ∈ m.deliveryHandlers, ∀ a b, f a b = .ok ()) ∧
  (∀ f ∈ m.readHandlers, ∀ a b, f a b = .ok ()) ∧
  (∀ f ∈ m.postBackHandlers, ∀ a b, f a b = .ok ()) ∧
  (∀ f ∈ m.optInHandlers, ∀ a b, f a b = .ok ()) ∧
  (∀ f ∈ m.referralHandlers, ∀ a b, f a b = .ok ())

/-- The kind of a recorded call. -/
def callKind : Call → Action
  | .text .. => TextAction
  | .delivery .. => DeliveryAction
  | .read .. => ReadAction
  | .postBack .. => PostBackAction
  | .optIn .. => OptInAction
  | .referral .. => ReferralAction

/-- The `Response` a recorded call received. -/
def callResp : Call → Response
  | .text _ _ resp => resp
  | .delivery _ _ resp => resp
  | .read _ _ resp => resp
  | .postBack _ _ resp => resp
  | .optIn _ _ resp => resp
  | .referral _ _ resp => resp

/-- The sender field of the typed payload a call received, when the
payload type has one (`Delivery` and `Read` have none). -/
def callPayloadSender : Call → Option Sender
  | .text _ msg _ => some msg.Sender
  | .postBack _ p _ => some p.Sender
  | .optIn _ o _ => some o.Sender
  | .referral _ r _ => some r.Sender
  | .delivery .. => none
  | .read .. => none

/-- The recipient field of the typed payload a call received, when the
payload type has one. -/
def callPayloadRecipient : Call → Option Recipient
  | .text _ msg _ => some msg.Recipient
  | .postBack _ p _ => some p.Recipient
  | .optIn _ o _ => some o.Recipient
  | .referral _ r _ => some r.Recipient
  | .delivery .. => none
  | .read .. => none

/-- The time field of the typed payload a call received, when the payload
type has one. -/
def callPayloadTime : Call → Option Int
  | .text _ msg _ => some msg.Time
  | .postBack _ p _ => some p.Time
  | .optIn _ o _ => some o.Time
  | .referral _ r _ => some r.Time
  | .delivery .. => none
  | .read .. => none

/-- Number of handlers registered in `m` for kind `K`. -/
def handlersCount (m : MessengerC) : Action → Nat
  | UnknownAction => 0
  | TextAction => m.messageHandlers.length
  | DeliveryAction => m.deliveryHandlers.length
  | ReadAction => m.readHandlers.length
  | PostBackAction => m.postBackHandlers.length
  | OptInAction => m.optInHandlers.length
  | ReferralAction => m.referralHandlers.length

/-- Number of recorded calls of kind `K` in a trace. -/
def countCalls (K : Action) (tr : List Call) : Nat :=
  tr.countP fun c => callKind c = K

/-- Number of events in a request that classify to kind `K`. -/
def eventCount (r : Receive) (K : Action) : Nat :=
  (r.Entry.flatMap fun e => e.Messaging.map fun info => classify info e).countP
    fun a => a = K

/-! ## JSON parsing and envelope decoding

Embedding of `json.Unmarshal(body, &rec)` as used by `handle`: a JSON
parser into a syntax tree (numbers keep their literal text, as the Go
decoder re-parses literals per target field), followed by a mapping onto
the `Receive` data model driven by the struct tags of `receiving.go` and
`message.go`.  Unknown object keys are ignored; key lookup prefers an
exact match and falls back to a case-insensitive one; later duplicate
keys win; `null` leaves a field at its zero value. -/

/-- JSON syntax tree.  Number literals are kept as text. -/
inductive Json where
  | null
  | bool (b : Bool)
  | num (lit : String)
  | str (s : String)
  | arr (elems : List Json)
  | obj (fields : List (String × Json))

/-- Value of a hex digit. -/
def hexVal (c : Char) : Option Nat :=
  if '0' ≤ c ∧ c ≤ '9' then some (c.toNat - 48)
  else if 'a' ≤ c ∧ c ≤ 'f' then some (c.toNat - 87)
  else if 'A' ≤ c ∧ c ≤ 'F' then some (c.toNat - 55)
  else none

/-- JSON insignificant whitespace. -/
def isWS (c : Char) : Bool := c = ' ' || c = '\t' || c = '\n' || c = '\r'

/-- Drop leading JSON whitespace. -/
def skipWS : List Char → List Char
  | [] => []
  | c :: cs => if isWS c then skipWS cs else c :: cs

/-- Single-character JSON string escapes. -/
def escChar (c : Char) : Option Char :=
  if c = '"' then some '"'
  else if c = '\\' then some '\\'
  else if c = '/' then some '/'
  else if c = 'b' then some (Char.ofNat 8)
  else if c = 'f' then some (Char.ofNat 12)
  else if c = 'n' then some '\n'
  else if c = 'r' then some '\r'
  else if c = 't' then some '\t'
  else none

/-- Parse the remainder of a JSON string after the opening quote. -/
def parseStr : Nat → List Char → Option (List Char × List Char)
  | 0, _ => none
  | _ + 1, [] => none
  | fuel + 1, c :: cs =>
    if c = '"' then some ([], cs)
    else if c = '\\' then
      match cs with
      | [] => none
      | e :: cs2 =>
        if e = 'u' then
          match cs2 with
          | a :: b :: c2 :: d :: cs3 => do
            let va ← hexVal a
            let vb ← hexVal b
            let vc ← hexVal c2
            let vd ← hexVal d
            let (rest, rem) ← parseStr fuel cs3
            some (Char.ofNat (va * 4096 + vb * 256 + vc * 16 + vd) :: rest, rem)
          | _ => none
        else do
          let ec ← escChar e
          let (rest, rem) ← parseStr fuel cs2
          some (ec :: rest, rem)
    else do
      let (rest, rem) ← parseStr fuel cs
      some (c :: rest, rem)

/-- Parse an optional JSON fraction part. -/
def parseFrac : List Char → Option (List Char × List Char)
  | '.' :: rest =>
    let fs := rest.takeWhile Char.isDigit
    if fs.isEmpty then none else some ('.' :: fs, rest.drop fs.length)
  | cs => some ([], cs)

/-- Parse an optional JSON exponent part. -/
def parseExp : List Char → Option (List Char × List Char)
  | c :: rest =>
    if c = 'e' ∨ c = 'E' then
      let sr : List Char × List Char :=
        match rest with
        | s :: r2 => if s = '+' ∨ s = '-' then ([s], r2) else ([], rest)
        | [] => ([], rest)
      let ds := sr.2.takeWhile Char.isDigit
      if ds.isEmpty then none else some (c :: sr.1 ++ ds, sr.2.drop ds.length)
    else some ([], c :: rest)
  | [] => some ([], [])

/-- Parse a JSON number, returning its literal text. -/
def parseNum (cs : List Char) : Option (String × List Char) :=
  let nr : List Char × List Char :=
    match cs with
    | '-' :: rest => (['-'], rest)
    | _ => ([], cs)
  let ds := nr.2.takeWhile Char.isDigit
  if ds.isEmpty then none
  else if 1 < ds.length ∧ ds.headD '0' = '0' then none
  else do
    let (fracPart, cs3) ← parseFrac (nr.2.drop ds.length)
    let (expPart, cs4) ← parseExp cs3
    some (⟨nr.1 ++ ds ++ fracPart ++ expPart⟩, cs4)

mutual

/-- Parse one JSON value. -/
def parseVal : Nat → List Char → Option (Json × List Char)
  | 0, _ => none
  | fuel + 1, cs =>
    match skipWS cs with
    | [] => none
    | c :: rest =>
      if c = '"' then do
        let (s, rem) ← parseStr (rest.length + 1) rest
        some (.str ⟨s⟩, rem)
      else if c = '{' then
        match skipWS rest with
        | '}' :: rem => some (.obj [], rem)
        | cs2 => do
          let (fields, rem) ← parseMembers fuel cs2
          some (.obj fields, rem)
      else if c = '[' then
        match skipWS rest with
        | ']' :: rem => some (.arr [], rem)
        | cs2 => do
          let (elems, rem) ← parseElems fuel cs2
          some (.arr elems, rem)
      else if c = 't' then
        match rest with
        | 'r' :: 'u' :: 'e' :: rem => some (.bool true, rem)
        | _ => none
      else if c = 'f' then
        match rest with
        | 'a' :: 'l' :: 's' :: 'e' :: rem => some (.bool false, rem)
        | _ => none
      else if c = 'n' then
        match rest with
        | 'u' :: 'l' :: 'l' :: rem => some (.null, rem)
        | _ => none
      else do
        let (lit, rem) ← parseNum (c :: rest)
        some (.num lit, rem)

/-- Parse the members of a JSON object up to the closing brace. -/
def parseMembers : Nat → List Char → Option (List (String × Json) × List Char)
  | 0, _ => none
  | fuel + 1, cs =>
    match skipWS cs with
    | '"' :: rest => do
      let (key, cs2) ← parseStr (rest.length + 1) rest
      match skipWS cs2 with
      | ':' :: cs3 => do
        let (v, cs4) ← parseVal fuel cs3
        match skipWS cs4 with
        | ',' :: cs5 => do
          let (fields, rem) ← parseMembers fuel cs5
          some ((⟨key⟩, v) :: fields, rem)
        | '}' :: rem => some ([(⟨key⟩, v)], rem)
        | _ => none
      | _ => none
    | _ => none

/-- Parse the elements of a JSON array up to the closing bracket. -/
def parseElems : Nat → List Char → Option (List Json × List Char)
  | 0, _ => none
  | fuel + 1, cs => do
    let (v, cs2) ← parseVal fuel cs
    match skipWS cs2 with
    | ',' :: cs3 => do
      let (elems, rem) ← parseElems fuel cs3
      some (v :: elems, rem)
    | ']' :: rem => some ([v], rem)
    | _ => none

end

/-- Parse a whole JSON document (one value plus trailing whitespace). -/
def parseJson (s : String) : Option Json :=
  match parseVal (s.data.length + 1) s.data with
  | some (j, rem) => if skipWS rem = [] then some j else none
  | none => none

/-- The decode failure of `json.Unmarshal` (the spec's `MalformedPayload`). -/
inductive DecodeError where
  | MalformedPayload
  deriving DecidableEq, Repr

/-- Look up a struct-tag key in a decoded object: exact match first, then
case-insensitive; the last matching member wins. -/
def lookupField (fields : List (String × Json)) (key : String) : Option Json :=
  match (fields.filter fun kv => kv.1 = key).getLast? with
  | some kv => some kv.2
  | none =>
    ((fields.filter fun kv => strToLower kv.1 = strToLower key).getLast?).map
      fun kv => kv.2

/-- Decode a string-typed field (absent or `null` gives the zero value). -/
def decString : Option Json → Except DecodeError String
  | none => .ok ""
  | some .null => .ok ""
  | some (.str s) => .ok s
  | _ => .error .MalformedPayload

/-- Decode a bool-typed field. -/
def decBool : Option Json → Except DecodeError Bool
  | none => .ok false
  | some .null => .ok false
  | some (.bool b) => .ok b
  | _ => .error .MalformedPayload

/-- Digits to a natural number. -/
def digitsToNat (ds : List Char) : Nat :=
  ds.foldl (fun acc c => acc * 10 + (c.toNat - 48)) 0

/-- `strconv.ParseInt` on a 64-bit integer literal: optional sign, decimal
digits, and the int64 range check. -/
def parseIntLit (s : String) : Option Int :=
  let nr : Bool × List Char :=
    match s.data with
    | '-' :: rest => (true, rest)
    | '+' :: rest => (false, rest)
    | cs => (false, cs)
  if nr.2.isEmpty ∨ ¬ nr.2.all Char.isDigit then none
  else
    let n : Int := digitsToNat nr.2
    let v := if nr.1 then -n else n
    if v < -9223372036854775808 ∨ 9223372036854775807 < v then none else some v

/-- Decode an int64-typed field holding a plain JSON number. -/
def decInt64 : Option Json → Except DecodeError Int
  | none => .ok 0
  | some .null => .ok 0
  | some (.num lit) =>
    match parseIntLit lit with
    | some v => .ok v
    | none => .error .MalformedPayload
  | _ => .error .MalformedPayload

/-- Decode an int64-typed field with the `,string` tag: the value must be
a JSON string whose contents parse as an integer. -/
def decInt64Str : Option Json → Except DecodeError Int
  | none => .ok 0
  | some .null => .ok 0
  | some (.str s) =>
    match parseIntLit s with
    | some v => .ok v
    | none => .error .MalformedPayload
  | _ => .error .MalformedPayload

/-- Decode a slice-typed field into its element list. -/
def decArr : Option Json → Except DecodeError (List Json)
  | none => .ok []
  | some .null => .ok []
  | some (.arr xs) => .ok xs
  | _ => .error .MalformedPayload

/-- Decode an element of a `[]string` slice. -/
def decStringItem : Json → Except DecodeError String
  | .str s => .ok s
  | .null => .ok ""
  | _ => .error .MalformedPayload

/-- `Sender` decoder (`id` is tagged `,string`). -/
def decSender : Json → Except DecodeError Sender
  | .null => .ok {}
  | .obj f => do
    let id ← decInt64Str (lookupField f "id")
    .ok ⟨id⟩
  | _ => .error .MalformedPayload

/-- `Recipient` decoder (`id` is tagged `,string`). -/
def decRecipient : Json → Except DecodeError Recipient
  | .null => .ok {}
  | .obj f => do
    let id ← decInt64Str (lookupField f "id")
    .ok ⟨id⟩
  | _ => .error .MalformedPayload

/-- Decode a struct-typed (non-pointer) field: absent gives the zero
value. -/
def decStructField {α : Type} (dflt : α) (dec : Json → Except DecodeError α)
    (o : Option Json) : Except DecodeError α :=
  match o with
  | none => .ok dflt
  | some j => dec j

/-- Decode a pointer-typed field: absent or `null` gives `none`. -/
def decPtrField {α : Type} (dec : Json → Except DecodeError α)
    (o : Option Json) : Except DecodeError (Option α) :=
  match o with
  | none => .ok none
  | some .null => .ok none
  | some j => (dec j).map some

/-- `Payload` decoder.  The `coordinates` sub-object (float-valued) is out
of the model's scope and is ignored here. -/
def decPayload : Json → Except DecodeError Payload
  | .null => .ok {}
  | .obj f => do
    let url ← decString (lookupField f "url")
    .ok { URL := url }
  | _ => .error .MalformedPayload

/-- `QuickReply` decoder. -/
def decQuickReply : Json → Except DecodeError QuickReply
  | .null => .ok {}
  | .obj f => do
    let ct ← decString (lookupField f "content_type")
    let ti ← decString (lookupField f "title")
    let pl ← decString (lookupField f "payload")
    .ok { ContentType := ct, Title := ti, Payload := pl }
  | _ => .error .MalformedPayload

/-- `Attachment` decoder. -/
def decAttachment : Json → Except DecodeError Attachment
  | .null => .ok {}
  | .obj f => do
    let ti ← decString (lookupField f "title")
    let url ← decString (lookupField f "url")
    let ty ← decString (lookupField f "type")
    let pl ← decStructField {} decPayload (lookupField f "payload")
    .ok { Title := ti, URL := url, «Type» := ty, Payload := pl }
  | _ => .error .MalformedPayload

/-- `Message` decoder (the `json:"-"` fields stay at their zero values). -/
def decMessage : Json → Except DecodeError Message
  | .null => .ok {}
  | .obj f => do
    let isEcho ← decBool (lookupField f "is_echo")
    let mid ← decString (lookupField f "mid")
    let seq ← decInt64 (lookupField f "seq")
    let text ← decString (lookupField f "text")
    let aj ← decArr (lookupField f "attachments")
    let atts ← aj.mapM decAttachment
    let qr ← decPtrField decQuickReply (lookupField f "quick_reply")
    .ok { IsEcho := isEcho, Mid := mid, Seq := seq, Text := text,
          Attachments := atts, QuickReply := qr }
  | _ => .error .MalformedPayload

/-- `Delivery` decoder. -/
def decDelivery : Json → Except DecodeError Delivery
  | .null => .ok {}
  | .obj f => do
    let mj ← decArr (lookupField f "mids")
    let mids ← mj.mapM decStringItem
    let wm ← decInt64 (lookupField f "watermark")
    let seq ← decInt64 (lookupField f "seq")
    .ok { Mids := mids, RawWatermark := wm, Seq := seq }
  | _ => .error .MalformedPayload

/-- `Read` decoder. -/
def decRead : Json → Except DecodeError Read
  | .null => .ok {}
  | .obj f => do
    let wm ← decInt64 (lookupField f "watermark")
    let seq ← decInt64 (lookupField f "seq")
    .ok { RawWatermark := wm, Seq := seq }
  | _ => .error .MalformedPayload

/-- `Referral` decoder. -/
def decReferral : Json → Except DecodeError Referral
  | .null => .ok {}
  | .obj f => do
    let ref ← decString (lookupField f "ref")
    let src ← decString (lookupField f "source")
    let ty ← decString (lookupField f "type")
    .ok { Ref := ref, Source := src, «Type» := ty }
  | _ => .error .MalformedPayload

/-- `PostBack` decoder. -/
def decPostBack : Json → Except DecodeError PostBack
  | .null => .ok {}
  | .obj f => do
    let pl ← decString (lookupField f "payload")
    let ref ← decStructField {} decReferral (lookupField f "referral")
    .ok { Payload := pl, Referral := ref }
  | _ => .error .MalformedPayload

/-- `OptIn` decoder. -/
def decOptIn : Json → Except DecodeError OptIn
  | .null => .ok {}
  | .obj f => do
    let ref ← decString (lookupField f "ref")
    .ok { Ref := ref }
  | _ => .error .MalformedPayload

/-- `ReferralMessage` decoder: the embedded `*Referral` promotes the keys
`ref`, `source` and `type`; the embedded pointer is allocated exactly when
one of them occurs. -/
def decReferralMessage : Json → Except DecodeError ReferralMessage
  | .null => .ok {}
  | .obj f => do
    if (lookupField f "ref").isSome ∨ (lookupField f "source").isSome ∨
        (lookupField f "type").isSome then
      let ref ← decString (lookupField f "ref")
      let src ← decString (lookupField f "source")
      let ty ← decString (lookupField f "type")
      .ok { Referral := some { Ref := ref, Source := src, «Type» := ty } }
    else
      .ok { Referral := none }
  | _ => .error .MalformedPayload

/-- `AccountLinking` decoder. -/
def decAccountLinking : Json → Except DecodeError AccountLinking
  | .null => .ok {}
  | .obj f => do
    let st ← decString (lookupField f "status")
    let ac ← decString (lookupField f "authorization_code")
    .ok { Status := st, AuthorizationCode := ac }
  | _ => .error .MalformedPayload

/-- `MessageInfo` decoder. -/
def decMessageInfo : Json → Except DecodeError MessageInfo
  | .null => .ok {}
  | .obj f => do
    let sender ← decStructField {} decSender (lookupField f "sender")
    let recipient ← decStructField {} decRecipient (lookupField f "recipient")
    let ts ← decInt64 (lookupField f "timestamp")
    let msg ← decPtrField decMessage (lookupField f "message")
    let dlv ← decPtrField decDelivery (lookupField f "delivery")
    let pb ← decPtrField decPostBack (lookupField f "postback")
    let rd ← decPtrField decRead (lookupField f "read")
    let oi ← decPtrField decOptIn (lookupField f "optin")
    let rf ← decPtrField decReferralMessage (lookupField f "referral")
    let al ← decPtrField decAccountLinking (lookupField f "account_linking")
    .ok { Sender := sender, Recipient := recipient, Timestamp := ts,
          Message := msg, Delivery := dlv, PostBack := pb, Read := rd,
          OptIn := oi, ReferralMessage := rf, AccountLinking := al }
  | _ => .error .MalformedPayload

/-- `Entry` decoder (`id` is tagged `,string`). -/
def decEntry : Json → Except DecodeError Entry
  | .null => .ok {}
  | .obj f => do
    let id ← decInt64Str (lookupField f "id")
    let tm ← decInt64 (lookupField f "time")
    let mj ← decArr (lookupField f "messaging")
    let msgs ← mj.mapM decMessageInfo
    .ok { ID := id, Time := tm, Messaging := msgs }
  | _ => .error .MalformedPayload

/-- `Receive` decoder. -/
def decReceive : Json → Except DecodeError Receive
  | .null => .ok {}
  | .obj f => do
    let obj ← decString (lookupField f "object")
    let ej ← decArr (lookupField f "entry")
    let entries ← ej.mapM decEntry
    .ok { Object := obj, Entry := entries }
  | _ => .error .MalformedPayload

/-- `json.Unmarshal(body, &rec)`: parse, then map onto `Receive`. -/
def decodeReceive (body : String) : Except DecodeError Receive :=
  match parseJson body with
  | none => .error .MalformedPayload
  | some j => decReceive j

/-! ## The HTTP boundary handler -/

/-- The acknowledgment body written by `handle`: `.ok` is the literal
`{status: 'ok'}` line, `.notOk` the `{status: 'not ok'}` line. -/
inductive Ack where
  | ok
  | notOk
  deriving DecidableEq, Repr

/-- UTF-8 bytes of one character. -/
def charUtf8 (c : Char) : List Nat :=
  let n := c.toNat
  if n < 128 then [n]
  else if n < 2048 then [192 + n / 64, 128 + n % 64]
  else if n < 65536 then [224 + n / 4096, 128 + n / 64 % 64, 128 + n % 64]
  else [240 + n / 262144, 128 + n / 4096 % 64, 128 + n / 64 % 64, 128 + n % 64]

/-- UTF-8 bytes of a string (the raw request body as `checkIntegrity`
reads it). -/
def utf8Bytes (s : String) : List Nat :=
  s.data.flatMap charUtf8

/-- The POST branch of `handle` from `messenger.go` (lines 245-279): read
the body, decode it (failure acknowledges `not ok`), optionally verify the
signature (failure acknowledges `not ok`), dispatch, then acknowledge
`ok`.  The result pairs the dispatch trace with the acknowledgment;
`none` means no acknowledgment was written because a handler panic
propagated out of `dispatch`. -/
def handle (m : MessengerC) (header : String) (body : String) :
    List Call × Option Ack :=
  match decodeReceive body with
  | .error _ => ([], some .notOk)
  | .ok rec =>
    if m.verify then
      match checkIntegrity m.appSecret header (utf8Bytes body) with
      | .error _ => ([], some .notOk)
      | .ok _ =>
        let r := dispatch m rec
        (r.1, if r.2 then none else some .ok)
    else
      let r := dispatch m rec
      (r.1, if r.2 then none else some .ok)

deriving instance DecidableEq for Except

/-! ## Concrete instances used to exercise the definitions -/

/-- A client whose first message handler panics and whose second returns
normally. -/
def mPanic : MessengerC :=
  { messageHandlers := [fun _ _ => .error (), fun _ _ => .ok ()],
    token := "TOKEN" }

/-- A text event from sender 7 to recipient 8. -/
def infoText1 : MessageInfo :=
  { Sender := ⟨7⟩, Recipient := ⟨8⟩, Timestamp := 1000,
    Message := some { Text := "hi" } }

/-- A second text event from the same sender. -/
def infoText2 : MessageInfo :=
  { Sender := ⟨7⟩, Recipient := ⟨8⟩, Timestamp := 1000,
    Message := some { Text := "yo" } }

/-- A request carrying two text events in one batch. -/
def rTwoTexts : Receive :=
  { Object := "page",
    Entry := [{ ID := 1, Time := 0, Messaging := [infoText1, infoText2] }] }

/-- The wire body that decodes to `rTwoTexts`. -/
def bodyTwoTexts : String :=
  "\x7b\"object\":\"page\",\"entry\":[\x7b\"id\":\"1\",\"time\":0,\"messaging\":[\x7b\"sender\":\x7b\"id\":\"7\"\x7d,\"recipient\":\x7b\"id\":\"8\"\x7d,\"timestamp\":1000,\"message\":\x7b\"text\":\"hi\"\x7d\x7d,\x7b\"sender\":\x7b\"id\":\"7\"\x7d,\"recipient\":\x7b\"id\":\"8\"\x7d,\"timestamp\":1000,\"message\":\x7b\"text\":\"yo\"\x7d\x7d]\x7d]\x7d"

/-- A client with one delivery handler. -/
def mDlv : MessengerC :=
  { deliveryHandlers := [fun _ _ => .ok ()], token := "TOKEN" }

/-- A delivery-receipt event from sender 7. -/
def infoDlv : MessageInfo :=
  { Sender := ⟨7⟩, Recipient := ⟨8⟩, Timestamp := 2000,
    Delivery := some { Mids := ["m1"], RawWatermark := 99, Seq := 3 } }

/-- A request carrying one delivery-receipt event. -/
def rDlv : Receive :=
  { Object := "page", Entry := [{ ID := 2, Time := 0, Messaging := [infoDlv] }] }

/-- A client with a single well-behaved message handler. -/
def mOkM : MessengerC :=
  { messageHandlers := [fun _ _ => .ok ()], token := "TOKEN" }

/-- A request carrying one text event. -/
def rText : Receive :=
  { Object := "page", Entry := [{ ID := 1, Time := 0, Messaging := [infoText1] }] }

/-- The empty-envelope wire body of claim C8. -/
def pageEmptyBody : String := "\x7b\"object\":\"page\",\"entry\":[]\x7d"

/-! ## Helper lemmas about the hex rendering and header splitting -/

lemma hexDigit_mem (n : Nat) : hexDigit n ∈ hexChars := by
  have h : n % 16 < hexChars.length := by
    have : n % 16 < 16 := Nat.mod_lt _ (by omega)
    simpa [hexChars] using this
  rw [hexDigit, List.getD_eq_getElem _ _ h]
  exact List.getElem_mem h

lemma bytesToHex_mem {c : Char} {bs : List Nat} (h : c ∈ (bytesToHex bs).data) :
    c ∈ hexChars := by
  simp only [bytesToHex, List.mem_flatMap] at h
  obtain ⟨b, -, hb⟩ := h
  simp only [List.mem_cons, List.not_mem_nil, or_false] at hb
  rcases hb with h | h
  · exact h ▸ hexDigit_mem _
  · exact h ▸ hexDigit_mem _

lemma toLower_of_mem_hexChars {c : Char} (h : c ∈ hexChars) : c.toLower = c := by
  fin_cases h <;> rfl

lemma map_toLower_id {l : List Char} (h : ∀ c ∈ l, c.toLower = c) :
    l.map Char.toLower = l := by
  induction l with
  | nil => rfl
  | cons c cs ih =>
    simp only [List.map_cons, h c (by simp)]
    rw [ih fun x hx => h x (by simp [hx])]

lemma strToLower_bytesToHex (bs : List Nat) :
    strToLower (bytesToHex bs) = bytesToHex bs := by
  show String.mk _ = _
  rw [map_toLower_id fun c hc => toLower_of_mem_hexChars (bytesToHex_mem hc)]

lemma takeWhile_append_cons {α} (p : α → Bool) (l : List α) (c : α) (post : List α)
    (hl : ∀ x ∈ l, p x) (hc : p c = false) :
    (l ++ c :: post).takeWhile p = l := by
  simp [List.takeWhile_append, List.takeWhile_eq_self_iff.2 hl, hc]

lemma splitN2_of_not_mem {s : String} (h : '=' ∉ s.data) : splitN2 s = [s] := by
  have ht : s.data.takeWhile (· ≠ '=') = s.data :=
    List.takeWhile_eq_self_iff.2 fun c hc => decide_eq_true fun hcc => h (hcc ▸ hc)
  rw [splitN2, ht, if_pos rfl]

lemma splitN2_encode (pre post : List Char) (h : ∀ c ∈ pre, c ≠ '=') :
    splitN2 ⟨pre ++ '=' :: post⟩ = [⟨pre⟩, ⟨post⟩] := by
  have ht : ((⟨pre ++ '=' :: post⟩ : String)).data.takeWhile (· ≠ '=') = pre :=
    takeWhile_append_cons _ pre '=' post
      (fun c hc => decide_eq_true (h c hc)) (by decide)
  have hdrop : (pre ++ '=' :: post).drop (pre.length + 1) = post := by
    have he : pre ++ '=' :: post = (pre ++ ['=']) ++ post := by simp
    have hl : pre.length + 1 = (pre ++ ['=']).length := by simp
    rw [he, hl, List.drop_left]
  rw [splitN2, ht]
  rw [if_neg (by simp only [List.length_append, List.length_cons]; omega)]
  have hd2 : ((⟨pre ++ '=' :: post⟩ : String)).data = pre ++ '=' :: post := rfl
  rw [hd2, hdrop]

lemma strToLower_mk (l : List Char) : strToLower ⟨l⟩ = ⟨l.map Char.toLower⟩ := rfl

lemma takeWhile_length_lt_of_mem {l : List Char} (h : '=' ∈ l) :
    (l.takeWhile (· ≠ '=')).length < l.length := by
  induction l with
  | nil => cases h
  | cons c cs ih =>
    by_cases hc : c = '='
    · subst hc
      simp [List.takeWhile_cons]
    · rcases List.mem_cons.1 h with h | hmem
      · exact absurd h.symm hc
      · have hd : (fun x => decide (x ≠ '=')) c = true := decide_eq_true hc
        simp only [List.takeWhile_cons, hd, if_true, List.length_cons]
        exact Nat.succ_lt_succ (ih hmem)

/-- Claims about `checkIntegrity` with a well-formed `<enc>=<digest>` header
reduce to this normal form. -/
lemma checkIntegrity_encoded (S B : List Nat) (enc d : String)
    (hS : S ≠ []) (henc : '=' ∉ enc.data) :
    checkIntegrity S (enc ++ "=" ++ d) B =
      (if strToLower enc = "sha1" then
        (if hexHmacSha1 S B ≠ strToLower d then .error .SignatureMismatch else .ok ())
       else .error .UnsupportedEncoding) := by
  have hdata : (enc ++ "=" ++ d).data = enc.data ++ '=' :: d.data := by
    show enc.data ++ ('=' :: []) ++ d.data = _
    simp
  rw [checkIntegrity, if_neg hS]
  have hsplit : splitN2 (enc ++ "=" ++ d) = [enc, d] := by
    have := splitN2_encode enc.data d.data fun c hc heq => henc (heq ▸ hc)
    have he : (⟨enc.data ++ '=' :: d.data⟩ : String) = enc ++ "=" ++ d := by
      apply congrArg String.mk
      exact hdata.symm
    rw [he] at this
    simpa using this
  rw [hsplit]
  rfl

/-! ## Claim C1: classifier precedence -/

/-- C1 counterexample: the claim states that `classify` returns `Unknown`
if and only if no variant field is populated, with `AccountLinkingChange`
among the variants.  The event record whose only populated variant is
`AccountLinking` classifies as `UnknownAction` even though a variant field
is populated, so the claim as stated is false: `classify` never inspects
the decoded `AccountLinking` field. -/
theorem classify_unknown_despite_accountLinking :
    classify { AccountLinking := some {} } {} = UnknownAction ∧
    ({ AccountLinking := some {} } : MessageInfo).AccountLinking ≠ none := by
  constructor
  · rfl
  · decide

/-- C1 (amended): for every decoded event record, `classify` returns the
first populated variant under the fixed precedence order TextMessage,
DeliveryReceipt, ReadReceipt, PostBack, OptIn, Referral, and returns
`Unknown` if and only if none of those six variant fields is populated
(the decoded `AccountLinking` field never participates in
classification). -/
theorem classify_precedence (info : MessageInfo) (e : Entry) :
    (classify info e = TextAction ↔ info.Message.isSome) ∧
    (classify info e = DeliveryAction ↔
      info.Message = none ∧ info.Delivery.isSome) ∧
    (classify info e = ReadAction ↔
      info.Message = none ∧ info.Delivery = none ∧ info.Read.isSome) ∧
    (classify info e = PostBackAction ↔
      info.Message = none ∧ info.Delivery = none ∧ info.Read = none ∧
      info.PostBack.isSome) ∧
    (classify info e = OptInAction ↔
      info.Message = none ∧ info.Delivery = none ∧ info.Read = none ∧
      info.PostBack = none ∧ info.OptIn.isSome) ∧
    (classify info e = ReferralAction ↔
      info.Message = none ∧ info.Delivery = none ∧ info.Read = none ∧
      info.PostBack = none ∧ info.OptIn = none ∧
      info.ReferralMessage.isSome) ∧
    (classify info e = UnknownAction ↔
      info.Message = none ∧ info.Delivery = none ∧ info.Read = none ∧
      info.PostBack = none ∧ info.OptIn = none ∧
      info.ReferralMessage = none) := by
  cases hM : info.Message <;> cases hD : info.Delivery <;>
    cases hR : info.Read <;> cases hP : info.PostBack <;>
    cases hO : info.OptIn <;> cases hRf : info.ReferralMessage <;>
    simp [classify, hM, hD, hR, hP, hO, hRf]

/-! ## Claim C10: classification is independent of the enclosing batch -/

/-- C10: classification does not depend on the enclosing batch, and
depends only on which variant pointers of the event record are
populated. -/
theorem classify_ignores_entry (info info2 : MessageInfo) (e1 e2 : Entry) :
    classify info e1 = classify info e2 ∧
    (info.Message.isSome = info2.Message.isSome →
     info.Delivery.isSome = info2.Delivery.isSome →
     info.Read.isSome = info2.Read.isSome →
     info.PostBack.isSome = info2.PostBack.isSome →
     info.OptIn.isSome = info2.OptIn.isSome →
     info.ReferralMessage.isSome = info2.ReferralMessage.isSome →
     info.AccountLinking.isSome = info2.AccountLinking.isSome →
     classify info e1 = classify info2 e2) := by
  constructor
  · rfl
  · intro h1 h2 h3 h4 h5 h6 _
    simp only [classify, h1, h2, h3, h4, h5, h6]

/-- C10 witness: two records whose variant pointers agree classify alike
in two different batches. -/
theorem classify_ignores_entry_witness :
    classify { Message := some {} } { ID := 1 } =
      classify { Message := some {} } { ID := 2 } ∧
    classify { Message := some {} } { ID := 1 } =
      classify { Message := some {}, Timestamp := 5 } { ID := 2 } :=
  ⟨(classify_ignores_entry { Message := some {} }
      { Message := some {}, Timestamp := 5 } { ID := 1 } { ID := 2 }).1,
   (classify_ignores_entry { Message := some {} }
      { Message := some {}, Timestamp := 5 } { ID := 1 } { ID := 2 }).2
     rfl rfl rfl rfl rfl rfl rfl⟩

/-! ## Claim C2: signature verification contract -/

/-- C2: for every body and non-empty configured secret, verification of
the header `sha1=` + lowercase hex HMAC-SHA1 succeeds; replacing any hex
character of the digest by a different hex digit fails with
`SignatureMismatch`; an absent/empty header fails with `MissingHeader`;
the `sha256` encoding token fails with `UnsupportedEncoding`; an empty
configured secret fails with `MissingSecret`. -/
theorem checkIntegrity_contract (S B : List Nat) (header d : String)
    (hS : S ≠ []) (i : Nat) (c : Char)
    (hi : i < (hexHmacSha1 S B).data.length)
    (hc : c ∈ hexChars)
    (hne : c ≠ (hexHmacSha1 S B).data.getD i '0') :
    checkIntegrity S ("sha1=" ++ hexHmacSha1 S B) B = .ok () ∧
    checkIntegrity S ("sha1=" ++ ⟨(hexHmacSha1 S B).data.set i c⟩) B =
      .error .SignatureMismatch ∧
    checkIntegrity S "" B = .error .MissingHeader ∧
    (∀ enc : String, strToLower enc ≠ "sha1" → '=' ∉ enc.data →
      checkIntegrity S (enc ++ "=" ++ d) B = .error .UnsupportedEncoding) ∧
    checkIntegrity [] header B = .error .MissingSecret := by
  have hlowdg : strToLower (hexHmacSha1 S B) = hexHmacSha1 S B :=
    strToLower_bytesToHex (hmacSha1 S B)
  refine ⟨?_, ?_, ?_, ?_, ?_⟩
  · rw [show ("sha1=" ++ hexHmacSha1 S B) = ("sha1" ++ "=" ++ hexHmacSha1 S B)
      from rfl]
    rw [checkIntegrity_encoded S B "sha1" (hexHmacSha1 S B) hS (by decide)]
    rw [if_pos (by decide), hlowdg]
    simp
  · have hlow : strToLower ⟨(hexHmacSha1 S B).data.set i c⟩ =
        ⟨(hexHmacSha1 S B).data.set i c⟩ := by
      rw [strToLower_mk]
      refine congrArg String.mk (map_toLower_id fun x hx => ?_)
      rcases List.mem_or_eq_of_mem_set hx with h | h
      · exact toLower_of_mem_hexChars (bytesToHex_mem h)
      · exact h ▸ toLower_of_mem_hexChars hc
    have hgi : ((hexHmacSha1 S B).data.set i c).getD i '0' = c := by
      rw [List.getD_eq_getElem _ _ (by simpa using hi)]
      simp [List.getElem_set_self]
    have hneq : (⟨(hexHmacSha1 S B).data.set i c⟩ : String) ≠ hexHmacSha1 S B := by
      intro hEq
      have hdata : (hexHmacSha1 S B).data.set i c = (hexHmacSha1 S B).data :=
        congrArg String.data hEq
      rw [hdata] at hgi
      exact hne hgi.symm
    rw [show ("sha1=" ++ (⟨(hexHmacSha1 S B).data.set i c⟩ : String)) =
      ("sha1" ++ "=" ++ ⟨(hexHmacSha1 S B).data.set i c⟩) from rfl]
    rw [checkIntegrity_encoded S B "sha1" _ hS (by decide)]
    rw [if_pos (by decide), hlow]
    rw [if_pos fun hEq => hneq hEq.symm]
  · unfold checkIntegrity
    rw [if_neg hS]
    rfl
  · intro enc henc hmem
    rw [checkIntegrity_encoded S B enc d hS hmem]
    rw [if_neg henc]
  · rfl

/-- C2 witness: the contract at secret `k`, body `a`, with the first
digit of the digest flipped from `4` to `5`. -/
theorem checkIntegrity_contract_witness :
    checkIntegrity [107] ("sha1=" ++ hexHmacSha1 [107] [97]) [97] = .ok () ∧
    checkIntegrity [107]
      ("sha1=" ++ ⟨(hexHmacSha1 [107] [97]).data.set 0 '5'⟩) [97] =
      .error .SignatureMismatch ∧
    checkIntegrity [107] "" [97] = .error .MissingHeader ∧
    checkIntegrity [107] ("sha256" ++ "=" ++ "zz") [97] =
      .error .UnsupportedEncoding ∧
    checkIntegrity [] "x" [97] = .error .MissingSecret :=
  have h := checkIntegrity_contract [107] [97] "x" "zz" (by decide) 0 '5'
    (by decide) (by decide) (by decide)
  ⟨h.1, h.2.1, h.2.2.1, h.2.2.2.1 "sha256" (by decide) (by decide), h.2.2.2.2⟩

/-! ## Claim C6: malformed header detection -/

/-- C6 counterexample: the claim states that a header with more than one
`=`-delimited pair fails with `MalformedHeader`; the code splits at the
first `=` only, so `sha256=a=b` (non-empty header, configured secret)
fails with `UnsupportedEncoding`, not `MalformedHeader`. -/
theorem malformed_header_counterexample :
    checkIntegrity [107] "sha256=a=b" [97] = .error .UnsupportedEncoding ∧
    (Except.error VerifyError.UnsupportedEncoding : Except VerifyError Unit) ≠
      .error .MalformedHeader := by
  constructor
  · rfl
  · decide

/-- C6 (amended): with a configured secret and a non-empty header,
verification fails with `MalformedHeader` exactly when the header
contains no `=` at all; a header containing `=` (even several) is split
at the first `=` and handled as an encoding/digest pair, never yielding
`MalformedHeader`. -/
theorem malformed_header_iff (S B : List Nat) (header : String)
    (hS : S ≠ []) (hne : header ≠ "") :
    ('=' ∉ header.data → checkIntegrity S header B = .error .MalformedHeader) ∧
    ('=' ∈ header.data → checkIntegrity S header B ≠ .error .MalformedHeader) := by
  constructor
  · intro hmem
    unfold checkIntegrity
    rw [if_neg hS, splitN2_of_not_mem hmem]
    simp [hne]
  · intro hmem
    have hlt := takeWhile_length_lt_of_mem hmem
    have hsplit : splitN2 header =
        [⟨header.data.takeWhile (· ≠ '=')⟩,
         ⟨header.data.drop ((header.data.takeWhile (· ≠ '=')).length + 1)⟩] := by
      unfold splitN2
      rw [if_neg (by omega)]
    unfold checkIntegrity
    rw [if_neg hS, hsplit]
    simp only [List.length_cons, List.length_nil]
    rw [if_neg (by omega)]
    split_ifs <;> decide

/-- C6 witness: a header without `=` is malformed; one with two `=` is
not. -/
theorem malformed_header_iff_witness :
    checkIntegrity [107] "abc" [97] = .error .MalformedHeader ∧
    checkIntegrity [107] "a=b=c" [97] ≠ .error .MalformedHeader :=
  ⟨(malformed_header_iff [107] [97] "abc" (by decide) (by decide)).1 (by decide),
   (malformed_header_iff [107] [97] "a=b=c" (by decide) (by decide)).2 (by decide)⟩

/-! ## Claim C9: case-insensitive encoding token -/

/-- C9: the encoding token of the signature header is matched
case-insensitively: any letter-casing of `sha1` is accepted as the
supported encoding and verification proceeds to the digest comparison
(it never fails with `UnsupportedEncoding`). -/
theorem encoding_case_insensitive (S B : List Nat) (enc d : String)
    (hS : S ≠ []) (henc : strToLower enc = "sha1") :
    checkIntegrity S (enc ++ "=" ++ d) B ≠ .error .UnsupportedEncoding ∧
    checkIntegrity S (enc ++ "=" ++ d) B =
      (if hexHmacSha1 S B = strToLower d then .ok ()
       else .error .SignatureMismatch) := by
  have hmem : '=' ∉ enc.data := by
    intro hmem
    have h2 : Char.toLower '=' ∈ (strToLower enc).data :=
      List.mem_map_of_mem _ hmem
    rw [henc] at h2
    exact absurd h2 (by decide)
  rw [checkIntegrity_encoded S B enc d hS hmem, if_pos henc]
  by_cases hcmp : hexHmacSha1 S B = strToLower d
  · simp [hcmp]
  · simp [hcmp]

/-- C9 witness: the header `SHA1=<correct digest>` verifies. -/
theorem encoding_case_insensitive_witness :
    checkIntegrity [107] ("SHA1" ++ "=" ++ hexHmacSha1 [107] [97]) [97] ≠
      .error .UnsupportedEncoding ∧
    checkIntegrity [107] ("SHA1" ++ "=" ++ hexHmacSha1 [107] [97]) [97] =
      (if hexHmacSha1 [107] [97] = strToLower (hexHmacSha1 [107] [97])
       then .ok () else .error .SignatureMismatch) :=
  encoding_case_insensitive [107] [97] "SHA1" (hexHmacSha1 [107] [97])
    (by decide) (by decide)

/-! ## Dispatch refinement lemmas -/

lemma runHandlers_noPanic {α : Type} (hs : List (α → Response → HandlerResult))
    (a : α) (resp : Response) (mk : Nat → α → Response → Call)
    (h : ∀ f ∈ hs, ∀ x y, f x y = .ok ()) (i : Nat) :
    runHandlers hs a resp mk i =
      ((List.range hs.length).map fun k => mk (i + k) a resp, false) := by
  induction hs generalizing i with
  | nil => rfl
  | cons f fs ih =>
    rw [runHandlers, h f (by simp) a resp]
    rw [ih (fun g hg x y => h g (by simp [hg]) x y) (i + 1)]
    simp only [List.length_cons, List.range_succ_eq_map, List.map_cons,
      List.map_map]
    refine congrArg (fun l => (l, false)) ?_
    refine congrArg₂ List.cons (by rw [Nat.add_zero]) ?_
    refine List.map_congr_left fun k _ => ?_
    show mk (i + 1 + k) a resp = mk (i + (k + 1)) a resp
    rw [show i + 1 + k = i + (k + 1) from by omega]

lemma eventCalls_noPanic (m : MessengerC) (hm : NoPanics m)
    (info : MessageInfo) (e : Entry) :
    eventCalls m info e = (eventCanonical m info e, false) := by
  obtain ⟨h1, h2, h3, h4, h5, h6⟩ := hm
  unfold eventCalls eventCanonical
  cases hA : classify info e
  case UnknownAction => simp
  case TextAction =>
    simp only [hA]
    rw [if_neg (by decide), runHandlers_noPanic _ _ _ _ h1 0]
    simp [populatedMessage, replyContext]
  case DeliveryAction =>
    simp only [hA]
    rw [if_neg (by decide), runHandlers_noPanic _ _ _ _ h2 0]
    simp [replyContext]
  case ReadAction =>
    simp only [hA]
    rw [if_neg (by decide), runHandlers_noPanic _ _ _ _ h3 0]
    simp [replyContext]
  case PostBackAction =>
    simp only [hA]
    rw [if_neg (by decide), runHandlers_noPanic _ _ _ _ h4 0]
    simp [populatedPostBack, replyContext]
  case OptInAction =>
    simp only [hA]
    rw [if_neg (by decide), runHandlers_noPanic _ _ _ _ h5 0]
    simp [populatedOptIn, replyContext]
  case ReferralAction =>
    simp only [hA]
    rw [if_neg (by decide), runHandlers_noPanic _ _ _ _ h6 0]
    simp [populatedReferral, replyContext]

lemma dispatchInfos_noPanic (m : MessengerC) (hm : NoPanics m) (e : Entry)
    (infos : List MessageInfo) :
    dispatchInfos m e infos =
      (infos.flatMap fun info => eventCanonical m info e, false) := by
  induction infos with
  | nil => rfl
  | cons info rest ih =>
    rw [dispatchInfos, eventCalls_noPanic m hm info e, ih]
    simp

lemma dispatch_go_noPanic (m : MessengerC) (hm : NoPanics m)
    (es : List Entry) :
    dispatch.go m es =
      (es.flatMap fun e => e.Messaging.flatMap fun info =>
        eventCanonical m info e, false) := by
  induction es with
  | nil => rfl
  | cons e rest ih =>
    rw [dispatch.go, dispatchInfos_noPanic m hm e e.Messaging, ih]
    simp

lemma dispatch_noPanic (m : MessengerC) (hm : NoPanics m) (r : Receive) :
    dispatch m r = (canonicalTrace m r, false) :=
  dispatch_go_noPanic m hm r.Entry

lemma countP_map_const_kind (K A : Action) (n : Nat) (f : Nat → Call)
    (hf : ∀ i, callKind (f i) = A) :
    ((List.range n).map f).countP (fun c => callKind c = K) =
      if A = K then n else 0 := by
  rw [List.countP_map]
  by_cases hK : A = K
  · subst hK
    rw [if_pos rfl]
    have : ∀ i ∈ List.range n,
        ((fun c => decide (callKind c = A)) ∘ f) i = true := fun i _ => by
      simp [Function.comp, hf i]
    rw [List.countP_eq_length.2 this, List.length_range]
  · rw [if_neg hK]
    refine List.countP_eq_zero.2 fun i _ => ?_
    simp only [Function.comp, decide_eq_true_eq, hf i]
    exact hK

lemma countCalls_eventCanonical (m : MessengerC) (K : Action)
    (info : MessageInfo) (e : Entry) :
    countCalls K (eventCanonical m info e) =
      if classify info e = K then handlersCount m K else 0 := by
  unfold countCalls eventCanonical
  cases hA : classify info e
  case UnknownAction =>
    by_cases hK : UnknownAction = K
    · subst hK; rfl
    · rw [if_neg hK]; rfl
  case TextAction =>
    rw [countP_map_const_kind K TextAction m.messageHandlers.length
      (fun i => Call.text i (populatedMessage info) (replyContext m info))
      (fun i => rfl)]
    by_cases hK : TextAction = K
    · subst hK; rfl
    · rw [if_neg hK, if_neg hK]
  case DeliveryAction =>
    rw [countP_map_const_kind K DeliveryAction m.deliveryHandlers.length
      (fun i => Call.delivery i (info.Delivery.getD {}) (replyContext m info))
      (fun i => rfl)]
    by_cases hK : DeliveryAction = K
    · subst hK; rfl
    · rw [if_neg hK, if_neg hK]
  case ReadAction =>
    rw [countP_map_const_kind K ReadAction m.readHandlers.length
      (fun i => Call.read i (info.Read.getD {}) (replyContext m info))
      (fun i => rfl)]
    by_cases hK : ReadAction = K
    · subst hK; rfl
    · rw [if_neg hK, if_neg hK]
  case PostBackAction =>
    rw [countP_map_const_kind K PostBackAction m.postBackHandlers.length
      (fun i => Call.postBack i (populatedPostBack info) (replyContext m info))
      (fun i => rfl)]
    by_cases hK : PostBackAction = K
    · subst hK; rfl
    · rw [if_neg hK, if_neg hK]
  case OptInAction =>
    rw [countP_map_const_kind K OptInAction m.optInHandlers.length
      (fun i => Call.optIn i (populatedOptIn info) (replyContext m info))
      (fun i => rfl)]
    by_cases hK : OptInAction = K
    · subst hK; rfl
    · rw [if_neg hK, if_neg hK]
  case ReferralAction =>
    rw [countP_map_const_kind K ReferralAction m.referralHandlers.length
      (fun i => Call.referral i (populatedReferral info) (replyContext m info))
      (fun i => rfl)]
    by_cases hK : ReferralAction = K
    · subst hK; rfl
    · rw [if_neg hK, if_neg hK]

lemma countCalls_innerFlatMap (m : MessengerC) (K : Action) (e : Entry)
    (ms : List MessageInfo) :
    countCalls K (ms.flatMap fun info => eventCanonical m info e) =
      handlersCount m K *
        ((ms.map fun info => classify info e).countP fun a => a = K) := by
  unfold countCalls
  induction ms with
  | nil => simp
  | cons info rest ih =>
    rw [List.flatMap_cons, List.map_cons]
    rw [List.countP_append, List.countP_cons]
    have h1 := countCalls_eventCanonical m K info e
    rw [countCalls] at h1
    rw [h1, ih]
    by_cases hK : classify info e = K
    · rw [if_pos hK]
      simp [hK]
      ring
    · rw [if_neg hK]
      have hd : (decide (classify info e = K)) = false := decide_eq_false hK
      simp [hd]

lemma countCalls_canonicalTrace (m : MessengerC) (K : Action) (r : Receive) :
    countCalls K (canonicalTrace m r) = handlersCount m K * eventCount r K := by
  unfold canonicalTrace eventCount countCalls
  induction r.Entry with
  | nil => simp
  | cons e rest ih =>
    rw [List.flatMap_cons, List.flatMap_cons]
    rw [List.countP_append, List.countP_append]
    have h1 := countCalls_innerFlatMap m K e e.Messaging
    rw [countCalls] at h1
    rw [h1, ih]
    ring

lemma callResp_eventCanonical (m : MessengerC) (info : MessageInfo) (e : Entry) :
    ∀ c ∈ eventCanonical m info e, callResp c = replyContext m info := by
  intro c hc
  unfold eventCanonical at hc
  cases hA : classify info e <;> rw [hA] at hc
  case UnknownAction => cases hc
  all_goals
    obtain ⟨i, -, rfl⟩ := List.mem_map.1 hc
    rfl

lemma mem_runHandlers {α : Type} (hs : List (α → Response → HandlerResult))
    (a : α) (resp : Response) (mk : Nat → α → Response → Call) (i : Nat) :
    ∀ c ∈ (runHandlers hs a resp mk i).1, ∃ k, c = mk k a resp := by
  induction hs generalizing i with
  | nil => intro c hc; cases hc
  | cons f fs ih =>
    intro c hc
    rw [runHandlers] at hc
    cases hf : f a resp
    case error u =>
      cases u
      rw [hf] at hc
      exact ⟨i, by simpa using hc⟩
    case ok u =>
      cases u
      rw [hf] at hc
      rcases List.mem_cons.1 hc with h | h
      · exact ⟨i, h⟩
      · exact ih (i + 1) c h

/-! ## Claim C3: handler fan-out -/

/-- C3: when no handler panics, `dispatch` produces exactly the canonical
trace: batches in request order, events in batch order, and within one
event every handler of the classified kind in registration order; the
number of kind-`K` invocations is `handlersCount m K * eventCount r K`
(N handlers times M events of kind `K`); and every invocation receives a
`Response` whose target is that event's sender and whose credential is
the process-wide token. -/
theorem dispatch_fanout (m : MessengerC) (r : Receive) (K : Action)
    (hm : NoPanics m) :
    dispatch m r = (canonicalTrace m r, false) ∧
    countCalls K (dispatch m r).1 = handlersCount m K * eventCount r K ∧
    (∀ c ∈ (dispatch m r).1, ∃ e ∈ r.Entry, ∃ info ∈ e.Messaging,
      c ∈ eventCanonical m info e ∧ callResp c = replyContext m info) := by
  have hd := dispatch_noPanic m hm r
  refine ⟨hd, ?_, ?_⟩
  · rw [hd]
    exact countCalls_canonicalTrace m K r
  · intro c hc
    rw [hd] at hc
    simp only [canonicalTrace, List.mem_flatMap] at hc
    obtain ⟨e, he, info, hinfo, hcc⟩ := hc
    exact ⟨e, he, info, hinfo, hcc, callResp_eventCanonical m info e c hcc⟩

/-- C3 witness: one well-behaved message handler, one text event. -/
theorem dispatch_fanout_witness :
    dispatch mOkM rText = (canonicalTrace mOkM rText, false) ∧
    countCalls TextAction (dispatch mOkM rText).1 =
      handlersCount mOkM TextAction * eventCount rText TextAction :=
  have hm : NoPanics mOkM := by
    refine ⟨?_, ?_, ?_, ?_, ?_, ?_⟩ <;>
      intro f hf <;>
      first
        | exact absurd hf (List.not_mem_nil f)
        | (simp only [mOkM, List.mem_singleton] at hf
           subst hf
           exact fun a b => rfl)
  ⟨(dispatch_fanout mOkM rText TextAction hm).1,
   (dispatch_fanout mOkM rText TextAction hm).2.1⟩

/-! ## Claim C4: handler failure propagation -/

/-- C4 counterexample: the claim states that a handler failure is caught
and prevents neither the next registered handler nor subsequent events,
with the request still acknowledged.  With two registered message
handlers of which the first panics and a request of two text events, only
one invocation happens (the second handler and the second event are never
dispatched), the panic escapes `dispatch`, and no acknowledgment is
written. -/
theorem handler_panic_counterexample :
    (dispatch mPanic rTwoTexts).1.length = 1 ∧
    (dispatch mPanic rTwoTexts).2 = true ∧
    decodeReceive bodyTwoTexts = .ok rTwoTexts ∧
    handle mPanic "" bodyTwoTexts = ((dispatch mPanic rTwoTexts).1, none) :=
  ⟨by decide, by decide, by decide, by decide⟩

/-- C4 (amended): `dispatch` contains no recovery: a handler that panics
stops the handler loop after its own invocation (later handlers for the
same event are skipped), aborts all subsequent events of the request, and
the panic escapes `handle`, so no acknowledgment is written.  Only a
handler that returns normally does not disturb subsequent dispatch. -/
theorem handler_panic_propagates {α : Type} (m : MessengerC) (e : Entry)
    (info : MessageInfo) (rest : List MessageInfo)
    (f : α → Response → HandlerResult)
    (fs : List (α → Response → HandlerResult))
    (a : α) (resp : Response) (mk : Nat → α → Response → Call) (i : Nat)
    (header body : String) (rec : Receive)
    (hf : f a resp = .error ())
    (hpanic : (eventCalls m info e).2 = true)
    (hdec : decodeReceive body = .ok rec) (hver : m.verify = false)
    (hdisp : (dispatch m rec).2 = true) :
    runHandlers (f :: fs) a resp mk i = ([mk i a resp], true) ∧
    dispatchInfos m e (info :: rest) = ((eventCalls m info e).1, true) ∧
    handle m header body = ((dispatch m rec).1, none) := by
  refine ⟨?_, ?_, ?_⟩
  · rw [runHandlers, hf]
  · rw [dispatchInfos, if_pos hpanic]
  · unfold handle
    rw [hdec]
    simp only [hver, Bool.false_eq_true, if_false]
    rw [if_pos hdisp]

/-- C4 witness: the panic path exercised on the two-handler client and
the two-event request. -/
theorem handler_panic_propagates_witness :
    runHandlers [fun _ _ => .error (), fun _ _ => .ok ()]
      (populatedMessage infoText1) (replyContext mPanic infoText1)
      Call.text 0 =
      ([Call.text 0 (populatedMessage infoText1)
         (replyContext mPanic infoText1)], true) ∧
    dispatchInfos mPanic
      { ID := 1, Time := 0, Messaging := [infoText1, infoText2] }
      [infoText1, infoText2] =
      ((eventCalls mPanic infoText1
        { ID := 1, Time := 0, Messaging := [infoText1, infoText2] }).1,
       true) ∧
    handle mPanic "" bodyTwoTexts = ((dispatch mPanic rTwoTexts).1, none) :=
  handler_panic_propagates mPanic
    { ID := 1, Time := 0, Messaging := [infoText1, infoText2] }
    infoText1 [infoText2]
    (fun _ _ => .error ()) [fun _ _ => .ok ()]
    (populatedMessage infoText1) (replyContext mPanic infoText1)
    Call.text 0 "" bodyTwoTexts rTwoTexts
    rfl (by decide) (by decide) rfl (by decide)

/-! ## Claim C5: payload population -/

/-- C5 counterexample: the claim states that for every classified kind the
payload passed to handlers has the event's sender and recipient populated
and its timestamp normalized.  A delivery-receipt event from sender 7 is
dispatched with the decoded `Delivery` payload unchanged, which carries no
sender at all, so the claim fails for `DeliveryAction` (and likewise
`ReadAction`). -/
theorem delivery_payload_counterexample :
    (dispatch mDlv rDlv).1 =
      [Call.delivery 0 { Mids := ["m1"], RawWatermark := 99, Seq := 3 }
        { token := "TOKEN", «to» := ⟨7⟩ }] ∧
    callPayloadSender (Call.delivery 0
      { Mids := ["m1"], RawWatermark := 99, Seq := 3 }
      { token := "TOKEN", «to» := ⟨7⟩ }) = none ∧
    (none : Option Sender) ≠ some ⟨7⟩ :=
  ⟨by decide, rfl, by decide⟩

/-- C5 (amended): every dispatched invocation receives the ReplyContext
of its event; for the `TextAction`, `PostBackAction`, `OptInAction` and
`ReferralAction` kinds the typed payload carries the event's sender and
recipient and the timestamp normalized to whole seconds
(`Timestamp / 1000`, truncated); `DeliveryAction` and `ReadAction`
payloads are passed exactly as decoded and carry no sender, recipient or
time. -/
theorem dispatch_payload_population (m : MessengerC) (info : MessageInfo)
    (e : Entry) :
    ∀ c ∈ (eventCalls m info e).1,
      callResp c = replyContext m info ∧
      ((callKind c = TextAction ∨ callKind c = PostBackAction ∨
        callKind c = OptInAction ∨ callKind c = ReferralAction) →
        callPayloadSender c = some info.Sender ∧
        callPayloadRecipient c = some info.Recipient ∧
        callPayloadTime c = some (Int.tdiv info.Timestamp 1000)) ∧
      (callKind c = DeliveryAction →
        ∃ k, c = Call.delivery k (info.Delivery.getD {})
          (replyContext m info)) ∧
      (callKind c = ReadAction →
        ∃ k, c = Call.read k (info.Read.getD {}) (replyContext m info)) := by
  intro c hc
  unfold eventCalls at hc
  by_cases hU : classify info e = UnknownAction
  · rw [if_pos hU] at hc
    cases hc
  · rw [if_neg hU] at hc
    cases hA : classify info e
    · exact absurd hA hU
    · rw [hA] at hc
      obtain ⟨k, rfl⟩ := mem_runHandlers _ _ _ _ _ c hc
      refine ⟨rfl, fun _ => ⟨rfl, rfl, rfl⟩, ?_, ?_⟩ <;>
        (intro hk; cases hk)
    · rw [hA] at hc
      obtain ⟨k, rfl⟩ := mem_runHandlers _ _ _ _ _ c hc
      refine ⟨rfl, ?_, fun _ => ⟨k, rfl⟩, ?_⟩
      · intro hk
        rcases hk with hk | hk | hk | hk <;> cases hk
      · intro hk; cases hk
    · rw [hA] at hc
      obtain ⟨k, rfl⟩ := mem_runHandlers _ _ _ _ _ c hc
      refine ⟨rfl, ?_, ?_, fun _ => ⟨k, rfl⟩⟩
      · intro hk
        rcases hk with hk | hk | hk | hk <;> cases hk
      · intro hk; cases hk
    · rw [hA] at hc
      obtain ⟨k, rfl⟩ := mem_runHandlers _ _ _ _ _ c hc
      refine ⟨rfl, fun _ => ⟨rfl, rfl, rfl⟩, ?_, ?_⟩ <;>
        (intro hk; cases hk)
    · rw [hA] at hc
      obtain ⟨k, rfl⟩ := mem_runHandlers _ _ _ _ _ c hc
      refine ⟨rfl, fun _ => ⟨rfl, rfl, rfl⟩, ?_, ?_⟩ <;>
        (intro hk; cases hk)
    · rw [hA] at hc
      obtain ⟨k, rfl⟩ := mem_runHandlers _ _ _ _ _ c hc
      refine ⟨rfl, fun _ => ⟨rfl, rfl, rfl⟩, ?_, ?_⟩ <;>
        (intro hk; cases hk)

/-- C5 witness: the delivery call of the concrete delivery request
receives the event's ReplyContext yet its payload is the decoded
`Delivery` value. -/
theorem dispatch_payload_population_witness :
    callResp (Call.delivery 0 { Mids := ["m1"], RawWatermark := 99, Seq := 3 }
      { token := "TOKEN", «to» := ⟨7⟩ }) = replyContext mDlv infoDlv ∧
    (∃ k, Call.delivery 0 { Mids := ["m1"], RawWatermark := 99, Seq := 3 }
      { token := "TOKEN", «to» := ⟨7⟩ } =
      Call.delivery k (infoDlv.Delivery.getD {}) (replyContext mDlv infoDlv)) :=
  ⟨(dispatch_payload_population mDlv infoDlv { ID := 2 }
      (Call.delivery 0 { Mids := ["m1"], RawWatermark := 99, Seq := 3 }
        { token := "TOKEN", «to» := ⟨7⟩ }) (by decide)).1,
   (dispatch_payload_population mDlv infoDlv { ID := 2 }
      (Call.delivery 0 { Mids := ["m1"], RawWatermark := 99, Seq := 3 }
        { token := "TOKEN", «to» := ⟨7⟩ }) (by decide)).2.2.1 rfl⟩

/-! ## Claim C7: malformed payload short-circuits -/

/-- C7: a request body that does not decode to the envelope shape is
acknowledged with the `not ok` body and no handler is invoked. -/
theorem malformed_payload_short_circuit (m : MessengerC)
    (header body : String)
    (hdec : decodeReceive body = .error .MalformedPayload) :
    handle m header body = ([], some .notOk) := by
  unfold handle
  rw [hdec]

/-- C7 witness: the body `nonsense` is rejected with no calls. -/
theorem malformed_payload_short_circuit_witness :
    decodeReceive "nonsense" = .error .MalformedPayload ∧
    handle {} "" "nonsense" = ([], some .notOk) :=
  ⟨by decide, malformed_payload_short_circuit {} "" "nonsense" (by decide)⟩

/-! ## Claim C8: empty envelope -/

/-- C8: the body with an empty `entry` array decodes to an envelope with
zero batches, dispatch over it performs no invocation, and the request is
acknowledged with the `ok` body (stated for a client with verification
disabled, so that the dispatch path is reached). -/
theorem empty_envelope_ok (m : MessengerC) (header : String)
    (hver : m.verify = false) :
    decodeReceive pageEmptyBody = .ok { Object := "page", Entry := [] } ∧
    dispatch m { Object := "page", Entry := [] } = ([], false) ∧
    handle m header pageEmptyBody = ([], some .ok) := by
  refine ⟨by decide, rfl, ?_⟩
  unfold handle
  rw [show decodeReceive pageEmptyBody = .ok { Object := "page", Entry := [] }
    from by decide]
  simp only [hver, Bool.false_eq_true, if_false]
  rfl

/-- C8 witness: the default client acknowledges the empty envelope. -/
theorem empty_envelope_ok_witness :
    handle {} "" pageEmptyBody = ([], some .ok) :=
  (empty_envelope_ok {} "" rfl).2.2

end Messenger
